import Mathlib

/-!
Shallow embedding of the retirement-planning simulation engine of
src/src/RetirementForm.jsx: the accumulation-phase Monte Carlo projector
(`simulateAccumulation`), the decumulation-phase monthly cash-flow
simulator (`simulateDecumulation`) and the input validator
(`validateInputs`).

Modelling conventions:
* JavaScript numbers are modelled as rationals (`ℚ`).
* The `Math.random() * 2 - 1` draws of the accumulation loop are an
  explicit noise parameter `noise : ℕ → ℕ → ℚ` (simulation index, year
  index); a real run supplies values in `[-1, 1)`.
* Raw form fields are `Option ℚ`: `none` models an empty / falsy /
  non-parseable string (for which `!value || isNaN(parseFloat(value))`
  holds), `some q` a string parsing to the number `q`.
* `Array.prototype.sort((a, b) => a - b)` is modelled by `sortQ`
  (an ascending sort); the list of values of an ascending sort of a
  numeric array is unique, so any correct sorting function is a faithful
  model of the JavaScript one.
* JavaScript out-of-range array reads are modelled with `List.getD`
  defaults; the theorems below carry the length hypotheses under which
  no out-of-range read happens in the source.
-/

/-- The five named funds of the fund table. -/
inductive Fund
  | fa1
  | fa2
  | fa3
  | fa4
  | fa5
deriving DecidableEq

/-- Annual mean return and volatility of a fund.  The source field
`return` is a Lean keyword and is called `ret` here. -/
structure FundProfile where
  ret : ℚ
  volatility : ℚ

/-- The `fundData` lookup table of `RetirementForm.jsx` (lines 53-59). -/
def fundData : Fund → FundProfile
  | .fa1 => ⟨0.025, 0.05⟩
  | .fa2 => ⟨0.03, 0.0556⟩
  | .fa3 => ⟨0.035, 0.0799⟩
  | .fa4 => ⟨0.045, 0.1151⟩
  | .fa5 => ⟨0.053, 0.1464⟩

/-- `STANDARD_STATE_PENSION_ANNUAL` (line 62). -/
def STANDARD_STATE_PENSION_ANNUAL : ℚ := 11960

/-- The numeric inputs read by `simulateAccumulation` (lines 152-162).
Ages are the integers produced by `parseInt` on the validated fields. -/
structure AccumInput where
  fundSelection : Fund
  age : ℤ
  retirementAge : ℤ
  salary : ℚ
  currentPot : ℚ
  contributionRate : ℚ
  inflationRate : ℚ

/-- The inner year loop of one simulated path (lines 165-171): for each
year, contribution is added, a drawn return `mean + vol * u` is applied,
the end-of-year pot is recorded, and the salary is inflated.  `y` is the
current year index (used to address the noise draw), `n` the number of
years still to simulate. -/
def accumYears (meanReturn volatility rate infl : ℚ) (u : ℕ → ℚ) :
    ℕ → ℕ → ℚ → ℚ → List ℚ
  | _, 0, _, _ => []
  | y, n + 1, pot, salary =>
    let contribution := salary * rate
    let annualReturn := meanReturn + volatility * u y
    let pot2 := (pot + contribution) * (1 + annualReturn)
    pot2 :: accumYears meanReturn volatility rate infl u (y + 1) n pot2
      (salary * (1 + infl))

/-- `simulations = 1000` (line 155). -/
def simulations : ℕ := 1000

/-- The `results` array (lines 159-173): one yearly-balance list per
simulated path.  Path `i` uses the noise draws `noise i 0, noise i 1, …`
in order. -/
def accumResults (inp : AccumInput) (noise : ℕ → ℕ → ℚ) : List (List ℚ) :=
  (List.range simulations).map fun i =>
    accumYears (fundData inp.fundSelection).ret
      (fundData inp.fundSelection).volatility
      (inp.contributionRate / 100) (inp.inflationRate / 100) (noise i)
      0 (inp.retirementAge - inp.age).toNat inp.currentPot inp.salary

/-- Ascending numeric sort, the model of `.sort((a, b) => a - b)`. -/
def sortQ (l : List ℚ) : List ℚ := List.insertionSort (· ≤ ·) l

/-- The `percentiles` array (lines 175-177): for each year index, the
ascending-sorted list of that year's value across all paths. -/
def accumPercentileRows (inp : AccumInput) (noise : ℕ → ℕ → ℚ) :
    List (List ℚ) :=
  (List.range (inp.retirementAge - inp.age).toNat).map fun i =>
    sortQ ((accumResults inp noise).map fun run => run.getD i 0)

/-- `getPercentile` (lines 179-182): read the element at index
`Math.floor(percentile * data.length)`. -/
def getPercentile (data : List ℚ) (percentile : ℚ) : ℚ :=
  data.getD (⌊percentile * (data.length : ℚ)⌋).toNat 0

/-- The three percentile series returned by `simulateAccumulation`. -/
structure AccumResult where
  p25 : List ℚ
  p50 : List ℚ
  p75 : List ℚ

/-- `simulateAccumulation` (lines 152-189). -/
def simulateAccumulation (inp : AccumInput) (noise : ℕ → ℕ → ℚ) :
    AccumResult :=
  let rows := accumPercentileRows inp noise
  { p25 := rows.map fun row => getPercentile row 0.25
    p50 := rows.map fun row => getPercentile row 0.5
    p75 := rows.map fun row => getPercentile row 0.75 }

/-- The three drawdown policies (`drawdownType`). -/
inductive DrawdownType
  | percentage
  | fixed
  | initialPot
deriving DecidableEq

/-- The three `includeStatePension` choices: `"No"`, `"Yes - Standard"`,
`"Yes - Custom"`. -/
inductive PensionChoice
  | no
  | standard
  | custom
deriving DecidableEq

/-- The form data read by `simulateDecumulation` (lines 196-222), already
parsed: `numFunds` by `parseInt`, rates and amounts by `parseFloat`,
ages by `parseInt`. -/
structure DecumInput where
  numFunds : ℕ
  funds : List Fund
  drawdownType : DrawdownType
  drawdownPercentage : ℚ
  drawdownFixed : ℚ
  drawdownInitialPotPercentage : ℚ
  inflationRate : ℚ
  ageToLowRiskFund : ℤ
  retirementAge : ℤ
  includeStatePension : PensionChoice
  customStatePensionAnnual : ℚ

/-- The mutable state of the monthly loop of `simulateDecumulation`,
including the output arrays built incrementally (`fundBalances`,
`withdrawals`, `annualWithdrawals`, `statePensionMonthlyValues`,
`statePensionAnnualValues`). -/
structure DecumState where
  pots : List ℚ
  moved : List Bool
  curFixed : ℚ
  curYearW : ℚ
  spAnnual : ℚ
  spMonthly : ℚ
  months : ℕ
  recFunds : List (List ℚ)
  recW : List ℚ
  recAnnualW : List ℚ
  recSPM : List ℚ
  recSPA : List ℚ

/-- `returns` (line 198): each chosen fund's annual return divided by 12. -/
def monthlyReturns (inp : DecumInput) : List ℚ :=
  inp.funds.map fun f => (fundData f).ret / 12

/-- `drawdownRate` (line 201). -/
def drawdownRate (inp : DecumInput) : ℚ :=
  if inp.drawdownType = .percentage then inp.drawdownPercentage / 100 / 12
  else 0

/-- The policy-computed withdrawal of this month (lines 225-227), before
clamping. -/
def policyWithdrawal (inp : DecumInput) (s : DecumState) : ℚ :=
  if inp.drawdownType = .percentage then s.pots.sum * drawdownRate inp
  else s.curFixed

/-- `withdrawal = Math.min(withdrawal, pots[0])` (line 228). -/
def withdrawAmount (inp : DecumInput) (s : DecumState) : ℚ :=
  min (policyWithdrawal inp s) (s.pots.headD 0)

/-- Lines 225-230: compute the clamped withdrawal, subtract it from fund
0, accumulate it into the running annual total. -/
def withdrawStep (inp : DecumInput) (s : DecumState) : DecumState :=
  { s with
    pots := s.pots.set 0 (s.pots.headD 0 - withdrawAmount inp s)
    curYearW := s.curYearW + withdrawAmount inp s }

/-- Lines 232-234: apply each fund's monthly return, floored at zero. -/
def returnsStep (inp : DecumInput) (s : DecumState) : DecumState :=
  { s with pots := s.pots.mapIdx (fun i p =>
      max 0 (p * (1 + (monthlyReturns inp).getD i 0))) }

/-- Lines 236-245: at each completed year, if more than one fund holds a
positive balance, spread the combined total evenly across the funds with
positive balance. -/
def rebalanceStep (s : DecumState) : DecumState :=
  if s.months % 12 = 11 then
    if 1 < (s.pots.filter fun p => decide (0 < p)).length then
      { s with pots := s.pots.map fun p =>
          if 0 < p then
            s.pots.sum / ((s.pots.filter fun p => decide (0 < p)).length : ℚ)
          else 0 }
    else s
  else s

/-- Lines 247-254: if fund 0 has fallen below 12 times this month's
withdrawal, merge the first not-yet-moved fund (scanning indices
1, 2, …) with positive balance into fund 0; at most one per month.
The guard `pots[0] < withdrawal * 12` cannot change during the scan
before the first hit, so it is hoisted out of the loop. -/
def consolidateStep (inp : DecumInput) (w : ℚ) (s : DecumState) :
    DecumState :=
  if s.pots.headD 0 < w * 12 then
    match (List.range (inp.numFunds - 1)).find? fun i =>
        !(s.moved.getD i true) && decide (0 < s.pots.getD (i + 1) 0) with
    | some i =>
      { s with
        pots := (s.pots.set 0 (s.pots.headD 0 + s.pots.getD (i + 1) 0)).set
          (i + 1) 0
        moved := s.moved.set i true }
    | none => s
  else s

/-- Lines 256-261: once age reaches `ageToLowRiskFund`, sweep every
remaining balance of funds 1, 2, … into fund 0 and mark all funds moved.
The `age` variable equals `retirementAge + Math.floor(months / 12)` at
the start of every iteration. -/
def sweepStep (inp : DecumInput) (s : DecumState) : DecumState :=
  if inp.ageToLowRiskFund ≤ inp.retirementAge + ((s.months / 12 : ℕ) : ℤ) ∧
      s.pots.tail.any fun p => decide (0 < p)
  then
    { s with
      pots := (s.pots.headD 0 + s.pots.tail.sum) ::
        List.replicate (s.pots.length - 1) 0
      moved := s.moved.map fun _ => true }
  else s

/-- Lines 263-275: at each completed year, push the year's withdrawal
total and the current annual state pension, reset the year total, and
inflate the fixed drawdown and the state pension. -/
def yearEndStep (inp : DecumInput) (s : DecumState) : DecumState :=
  if s.months % 12 = 11 then
    { s with
      recAnnualW := s.recAnnualW ++ [s.curYearW]
      recSPA := s.recSPA ++ [s.spAnnual]
      curYearW := 0
      curFixed :=
        if inp.drawdownType = .fixed ∨ inp.drawdownType = .initialPot then
          s.curFixed * (1 + inp.inflationRate / 100)
        else s.curFixed
      spMonthly :=
        if inp.includeStatePension ≠ .no then
          s.spMonthly * (1 + inp.inflationRate / 100)
        else s.spMonthly
      spAnnual :=
        if inp.includeStatePension ≠ .no then
          s.spAnnual * (1 + inp.inflationRate / 100)
        else s.spAnnual }
  else s

/-- Lines 277-281: record this month's per-fund balances, withdrawal and
monthly state pension. -/
def recordStep (w : ℚ) (s : DecumState) : DecumState :=
  { s with
    recFunds := List.zipWith (fun l p => l ++ [p]) s.recFunds s.pots
    recW := s.recW ++ [w]
    recSPM := s.recSPM ++ [s.spMonthly] }

/-- One iteration of the monthly loop (lines 224-290), in source order:
withdrawal, returns, rebalancing, sequential consolidation, full
de-risking sweep, year-end bookkeeping, recording, month increment.
(The source skips the month increment when it breaks out of the loop,
but after a break the counter is never read again, so incrementing
unconditionally is observationally identical.) -/
def monthBody (inp : DecumInput) (s : DecumState) : DecumState :=
  let w := withdrawAmount inp s
  let s1 := withdrawStep inp s
  let s2 := returnsStep inp s1
  let s3 := rebalanceStep s2
  let s4 := consolidateStep inp w s3
  let s5 := sweepStep inp s4
  let s6 := yearEndStep inp s5
  let s7 := recordStep w s6
  { s7 with months := s7.months + 1 }

/-- Lines 283-286: on early termination (total pot below 1), flush a
positive partial-year withdrawal total into the annual series. -/
def flushAnnual (s : DecumState) : DecumState :=
  if 0 < s.curYearW then
    { s with recAnnualW := s.recAnnualW ++ [s.curYearW] }
  else s

/-- The monthly `while` loop (lines 224-290).  `fuel` is the number of
months still allowed by the `months < maxMonths` test; the loop also
stops when the total pot is no longer positive, and breaks (flushing the
partial year) when the total pot falls below 1 after a month's step. -/
def decumRun (inp : DecumInput) : ℕ → DecumState → DecumState
  | 0, s => s
  | fuel + 1, s =>
    if s.pots.sum ≤ 0 then s
    else
      let s2 := monthBody inp s
      if s2.pots.sum < 1 then flushAnnual s2
      else decumRun inp fuel s2

/-- `baseDrawdownFixed` (lines 202-203). -/
def baseDrawdownFixed (inp : DecumInput) (startingPot : ℚ) : ℚ :=
  if inp.drawdownType = .fixed then inp.drawdownFixed
  else if inp.drawdownType = .initialPot then
    startingPot * inp.drawdownInitialPotPercentage / 100 / 12
  else 0

/-- Initial annual state pension (lines 217-219). -/
def initStatePensionAnnual (inp : DecumInput) : ℚ :=
  if inp.includeStatePension = .standard then STANDARD_STATE_PENSION_ANNUAL
  else if inp.includeStatePension = .custom then inp.customStatePensionAnnual
  else 0

/-- The state at loop entry (lines 196-222): the starting pot split
evenly across the funds, no fund moved yet, zero accumulators, empty
output arrays. -/
def initState (inp : DecumInput) (startingPot : ℚ) : DecumState :=
  { pots := List.replicate inp.numFunds (startingPot / (inp.numFunds : ℚ))
    moved := List.replicate (inp.numFunds - 1) false
    curFixed := baseDrawdownFixed inp startingPot
    curYearW := 0
    spAnnual := initStatePensionAnnual inp
    spMonthly := initStatePensionAnnual inp / 12
    months := 0
    recFunds := List.replicate inp.numFunds []
    recW := []
    recAnnualW := []
    recSPM := []
    recSPA := [] }

/-- `maxMonths = (100 - retirementAge) * 12` (line 208). -/
def maxMonths (inp : DecumInput) : ℤ := (100 - inp.retirementAge) * 12

/-- The record returned by `simulateDecumulation` (line 292). -/
structure DecumResult where
  funds : List (List ℚ)
  withdrawals : List ℚ
  annualWithdrawals : List ℚ
  statePensionMonthlyValues : List ℚ
  statePensionAnnualValues : List ℚ
deriving DecidableEq

/-- The degenerate result of lines 193-194: one fund series of twelve
zeros and singleton zero series for everything else. -/
def degenerateResult : DecumResult :=
  { funds := [List.replicate 12 0]
    withdrawals := [0]
    annualWithdrawals := [0]
    statePensionMonthlyValues := [0]
    statePensionAnnualValues := [0] }

/-- `simulateDecumulation` (lines 192-293).  `startingPot = none` models
an absent or `NaN` argument; the source guard
`!startingPot || isNaN(startingPot) || startingPot <= 0` is therefore
`none` or a value at most 0. -/
def simulateDecumulation (inp : DecumInput) (startingPot : Option ℚ) :
    DecumResult :=
  match startingPot with
  | none => degenerateResult
  | some p =>
    if p ≤ 0 then degenerateResult
    else
      let sF := decumRun inp (maxMonths inp).toNat (initState inp p)
      { funds := sF.recFunds
        withdrawals := sF.recW
        annualWithdrawals := sF.recAnnualW
        statePensionMonthlyValues := sF.recSPM
        statePensionAnnualValues := sF.recSPA }

/-- The state at entry of month `n` of the decumulation loop: the loop
body iterated `n` times from the initial state.  The loop's stop tests
only decide how many iterations run; they do not change the state an
executed iteration starts from, so every month the simulation actually
executes starts from `stateSeq inp p n` for its month index `n`. -/
def stateSeq (inp : DecumInput) (p : ℚ) (n : ℕ) : DecumState :=
  (monthBody inp)^[n] (initState inp p)

/-- The form fields `validateInputs` can report an error for. -/
inductive FormField
  | age
  | salary
  | currentPot
  | contributionRate
  | retirementAge
  | ageToLowRiskFund
  | inflationRate
  | numFunds
  | drawdownPercentage
  | drawdownFixed
  | drawdownInitialPotPercentage
  | customStatePensionAnnual
deriving DecidableEq

/-- The raw form state as `validateInputs` sees it.  Each numeric field
is `Option ℚ`: `none` when the raw string is empty, falsy or not
parseable as a number. -/
structure RawInput where
  age : Option ℚ
  salary : Option ℚ
  currentPot : Option ℚ
  contributionRate : Option ℚ
  retirementAge : Option ℚ
  ageToLowRiskFund : Option ℚ
  inflationRate : Option ℚ
  numFunds : Option ℚ
  drawdownType : DrawdownType
  drawdownPercentage : Option ℚ
  drawdownFixed : Option ℚ
  drawdownInitialPotPercentage : Option ℚ
  includeStatePension : PensionChoice
  customStatePensionAnnual : Option ℚ

/-- The `fields` list of lines 69-92: the eight always-required fields in
source order, then the drawdown parameter matching the selected policy,
then the custom state pension amount when that policy is selected. -/
def requiredFields (r : RawInput) : List (FormField × Option ℚ) :=
  [(.age, r.age), (.salary, r.salary), (.currentPot, r.currentPot),
    (.contributionRate, r.contributionRate),
    (.retirementAge, r.retirementAge),
    (.ageToLowRiskFund, r.ageToLowRiskFund),
    (.inflationRate, r.inflationRate), (.numFunds, r.numFunds)]
  ++ (match r.drawdownType with
      | .percentage => [(.drawdownPercentage, r.drawdownPercentage)]
      | .fixed => [(.drawdownFixed, r.drawdownFixed)]
      | .initialPot =>
        [(.drawdownInitialPotPercentage, r.drawdownInitialPotPercentage)])
  ++ (if r.includeStatePension = .custom then
        [(.customStatePensionAnnual, r.customStatePensionAnnual)]
      else [])

/-- Stage (a), lines 95-99: the fields whose value is missing or not
parseable as a number, in source order. -/
def stageAErrors (r : RawInput) : List FormField :=
  (requiredFields r).filterMap fun fv =>
    if fv.2 = none then some fv.1 else none

/-- JavaScript `parseInt` on a string holding the decimal numeral of
`q`: truncation toward zero. -/
def jsParseInt (q : ℚ) : ℤ := if 0 ≤ q then ⌊q⌋ else ⌈q⌉

/-- Stage (b), lines 107-140: the range and logic checks, run on the
parsed values.  In the source an unparsed conditional field compares as
`NaN`, for which every `<`/`<=` test is false, which coincides with the
policy guards on each conditional check below. -/
def stageBErrors (r : RawInput) : List FormField :=
  let pAge := jsParseInt (r.age.getD 0)
  let pRet := jsParseInt (r.retirementAge.getD 0)
  let pSwitch := jsParseInt (r.ageToLowRiskFund.getD 0)
  let pNum := jsParseInt (r.numFunds.getD 0)
  (if pAge ≤ 0 then [FormField.age] else [])
  ++ (if pRet ≤ pAge then [FormField.retirementAge] else [])
  ++ (if r.salary.getD 0 ≤ 0 then [FormField.salary] else [])
  ++ (if r.currentPot.getD 0 < 0 then [FormField.currentPot] else [])
  ++ (if r.contributionRate.getD 0 ≤ 0 ∨ 100 < r.contributionRate.getD 0
      then [FormField.contributionRate] else [])
  ++ (if r.drawdownType = .percentage ∧
        (r.drawdownPercentage.getD 0 ≤ 0 ∨ 100 < r.drawdownPercentage.getD 0)
      then [FormField.drawdownPercentage] else [])
  ++ (if r.drawdownType = .fixed ∧ r.drawdownFixed.getD 0 ≤ 0
      then [FormField.drawdownFixed] else [])
  ++ (if r.drawdownType = .initialPot ∧
        (r.drawdownInitialPotPercentage.getD 0 ≤ 0 ∨
          100 < r.drawdownInitialPotPercentage.getD 0)
      then [FormField.drawdownInitialPotPercentage] else [])
  ++ (if pSwitch < pRet then [FormField.ageToLowRiskFund] else [])
  ++ (if r.inflationRate.getD 0 < 0 ∨ 20 < r.inflationRate.getD 0
      then [FormField.inflationRate] else [])
  ++ (if pNum < 1 ∨ 5 < pNum then [FormField.numFunds] else [])
  ++ (if r.includeStatePension = .custom ∧
        r.customStatePensionAnnual.getD 0 ≤ 0
      then [FormField.customStatePensionAnnual] else [])

/-- `validateInputs` (lines 66-149): the reported error fields.  Stage
(a) short-circuits: when it reports anything (lines 101-104), stage (b)
never runs.  The input is valid exactly when the result is `[]`. -/
def validateInputs (r : RawInput) : List FormField :=
  let aErrs := stageAErrors r
  if aErrs ≠ [] then aErrs else stageBErrors r

theorem getD_of_lt {α : Type} (l : List α) (i : ℕ) (h : i < l.length)
    (d : α) : l.getD i d = l.get ⟨i, h⟩ := by
  rw [List.getD_eq_getElem?_getD, List.getElem?_eq_getElem h]
  rfl

theorem getD_of_le {α : Type} (l : List α) (i : ℕ) (h : l.length ≤ i)
    (d : α) : l.getD i d = d := by
  rw [List.getD_eq_getElem?_getD, List.getElem?_eq_none h]
  rfl

theorem accumYears_length (mr vol rate infl : ℚ) (u : ℕ → ℚ) :
    ∀ (n y : ℕ) (pot salary : ℚ),
      (accumYears mr vol rate infl u y n pot salary).length = n := by
  intro n
  induction n with
  | zero => intro y pot salary; rfl
  | succ n ih => intro y pot salary; simp [accumYears, ih]

theorem accumResults_length (inp : AccumInput) (noise : ℕ → ℕ → ℚ) :
    (accumResults inp noise).length = simulations := by
  simp [accumResults]

theorem accumResults_run_length (inp : AccumInput) (noise : ℕ → ℕ → ℚ) :
    ∀ run ∈ accumResults inp noise,
      run.length = (inp.retirementAge - inp.age).toNat := by
  intro run hrun
  simp only [accumResults, List.mem_map] at hrun
  obtain ⟨i, -, rfl⟩ := hrun
  exact accumYears_length _ _ _ _ _ _ _ _ _

theorem sortQ_sorted (l : List ℚ) : (sortQ l).Sorted (· ≤ ·) :=
  List.sorted_insertionSort _ l

theorem sortQ_perm (l : List ℚ) : (sortQ l).Perm l :=
  List.perm_insertionSort _ l

theorem sortQ_length (l : List ℚ) : (sortQ l).length = l.length :=
  (sortQ_perm l).length_eq

theorem accumPercentileRows_length (inp : AccumInput) (noise : ℕ → ℕ → ℚ) :
    (accumPercentileRows inp noise).length =
      (inp.retirementAge - inp.age).toNat := by
  simp [accumPercentileRows]

theorem accumPercentileRows_get (inp : AccumInput) (noise : ℕ → ℕ → ℚ)
    (i : ℕ) (h : i < (accumPercentileRows inp noise).length) :
    (accumPercentileRows inp noise).get ⟨i, h⟩ =
      sortQ ((accumResults inp noise).map fun run => run.getD i 0) := by
  simp [accumPercentileRows]

theorem accumPercentileRows_row_length (inp : AccumInput)
    (noise : ℕ → ℕ → ℚ) (i : ℕ)
    (h : i < (accumPercentileRows inp noise).length) :
    ((accumPercentileRows inp noise).get ⟨i, h⟩).length = simulations := by
  rw [accumPercentileRows_get, sortQ_length, List.length_map,
    accumResults_length]

theorem getPercentile_quarter (data : List ℚ) (h : data.length = simulations) :
    getPercentile data 0.25 = data.getD 250 0 := by
  have h4 : (0.25 : ℚ) * ((data.length : ℕ) : ℚ) = 250 := by
    rw [h]; norm_num [simulations]
  rw [getPercentile, h4]
  norm_num
  have hidx : Int.toNat 250 = 250 := rfl
  rw [hidx]

theorem getPercentile_half (data : List ℚ) (h : data.length = simulations) :
    getPercentile data 0.5 = data.getD 500 0 := by
  have h4 : (0.5 : ℚ) * ((data.length : ℕ) : ℚ) = 500 := by
    rw [h]; norm_num [simulations]
  rw [getPercentile, h4]
  norm_num
  have hidx : Int.toNat 500 = 500 := rfl
  rw [hidx]

theorem getPercentile_threequarter (data : List ℚ)
    (h : data.length = simulations) :
    getPercentile data 0.75 = data.getD 750 0 := by
  have h4 : (0.75 : ℚ) * ((data.length : ℕ) : ℚ) = 750 := by
    rw [h]; norm_num [simulations]
  rw [getPercentile, h4]
  norm_num
  have hidx : Int.toNat 750 = 750 := rfl
  rw [hidx]

theorem accum_row_percentile (inp : AccumInput) (noise : ℕ → ℕ → ℚ) (i : ℕ)
    (h : i < (inp.retirementAge - inp.age).toNat) (q : ℚ) :
    ((accumPercentileRows inp noise).map fun row =>
        getPercentile row q).getD i 0 =
      getPercentile
        (sortQ ((accumResults inp noise).map fun run => run.getD i 0)) q := by
  have hr : i < (accumPercentileRows inp noise).length := by
    rw [accumPercentileRows_length]; exact h
  rw [getD_of_lt _ i (by simpa using hr) 0]
  simp only [List.get_eq_getElem, List.getElem_map]
  rw [← List.get_eq_getElem _ ⟨i, hr⟩, accumPercentileRows_get]

theorem accum_col_length (inp : AccumInput) (noise : ℕ → ℕ → ℚ) (i : ℕ) :
    ((accumResults inp noise).map fun run => run.getD i 0).length =
      simulations := by
  rw [List.length_map, accumResults_length]

theorem accum_percentiles_getD (inp : AccumInput) (noise : ℕ → ℕ → ℚ)
    (i : ℕ) (h : i < (inp.retirementAge - inp.age).toNat) :
    (simulateAccumulation inp noise).p25.getD i 0 =
      (sortQ ((accumResults inp noise).map fun run => run.getD i 0)).getD
        250 0 ∧
    (simulateAccumulation inp noise).p50.getD i 0 =
      (sortQ ((accumResults inp noise).map fun run => run.getD i 0)).getD
        500 0 ∧
    (simulateAccumulation inp noise).p75.getD i 0 =
      (sortQ ((accumResults inp noise).map fun run => run.getD i 0)).getD
        750 0 := by
  have hlen :
      (sortQ ((accumResults inp noise).map fun run => run.getD i 0)).length
        = simulations := by
    rw [sortQ_length, accum_col_length]
  refine ⟨?_, ?_, ?_⟩
  · show ((accumPercentileRows inp noise).map fun row =>
        getPercentile row 0.25).getD i 0 = _
    rw [accum_row_percentile inp noise i h, getPercentile_quarter _ hlen]
  · show ((accumPercentileRows inp noise).map fun row =>
        getPercentile row 0.5).getD i 0 = _
    rw [accum_row_percentile inp noise i h, getPercentile_half _ hlen]
  · show ((accumPercentileRows inp noise).map fun row =>
        getPercentile row 0.75).getD i 0 = _
    rw [accum_row_percentile inp noise i h, getPercentile_threequarter _ hlen]

theorem sorted_getD_mono (l : List ℚ) (hs : l.Sorted (· ≤ ·)) (i j : ℕ)
    (hij : i ≤ j) (hj : j < l.length) : l.getD i 0 ≤ l.getD j 0 := by
  have hi : i < l.length := lt_of_le_of_lt hij hj
  rw [getD_of_lt _ _ hi, getD_of_lt _ _ hj]
  exact hs.rel_get_of_le (by exact hij)

theorem simulateAccumulation_p25_length (inp : AccumInput)
    (noise : ℕ → ℕ → ℚ) :
    (simulateAccumulation inp noise).p25.length =
      (inp.retirementAge - inp.age).toNat := by
  show ((accumPercentileRows inp noise).map _).length = _
  rw [List.length_map, accumPercentileRows_length]

theorem simulateAccumulation_p50_length (inp : AccumInput)
    (noise : ℕ → ℕ → ℚ) :
    (simulateAccumulation inp noise).p50.length =
      (inp.retirementAge - inp.age).toNat := by
  show ((accumPercentileRows inp noise).map _).length = _
  rw [List.length_map, accumPercentileRows_length]

theorem simulateAccumulation_p75_length (inp : AccumInput)
    (noise : ℕ → ℕ → ℚ) :
    (simulateAccumulation inp noise).p75.length =
      (inp.retirementAge - inp.age).toNat := by
  show ((accumPercentileRows inp noise).map _).length = _
  rw [List.length_map, accumPercentileRows_length]

/-- A concrete accumulation input (two projection years) used to
instantiate hypotheses of proved theorems at a concrete point. -/
def accumExample : AccumInput :=
  { fundSelection := .fa1
    age := 60
    retirementAge := 62
    salary := 1
    currentPot := 100000
    contributionRate := 1
    inflationRate := 0 }

/-- Constant noise: every draw is `-1` (the value of
`Math.random() * 2 - 1` when `Math.random()` returns 0), so all 1000
paths coincide. -/
def constNoise : ℕ → ℕ → ℚ := fun _ _ => -1

/-- Claim C1: for every year index of the accumulation output, the
p25/p50/p75 values equal the elements of the ascending-sorted list of
that year's 1000 path values at the 0-based nearest-rank positions
`Math.floor(0.25 * 1000) = 250`, `Math.floor(0.5 * 1000) = 500` and
`Math.floor(0.75 * 1000) = 750` — no interpolation or midpoint
averaging. -/
theorem c1_percentiles_nearest_rank (inp : AccumInput)
    (noise : ℕ → ℕ → ℚ) (i : ℕ)
    (h : i < (inp.retirementAge - inp.age).toNat) :
    ((accumResults inp noise).map fun run => run.getD i 0).length = 1000 ∧
    (simulateAccumulation inp noise).p25.getD i 0 =
      (sortQ ((accumResults inp noise).map fun run => run.getD i 0)).getD
        250 0 ∧
    (simulateAccumulation inp noise).p50.getD i 0 =
      (sortQ ((accumResults inp noise).map fun run => run.getD i 0)).getD
        500 0 ∧
    (simulateAccumulation inp noise).p75.getD i 0 =
      (sortQ ((accumResults inp noise).map fun run => run.getD i 0)).getD
        750 0 := by
  obtain ⟨h1, h2, h3⟩ := accum_percentiles_getD inp noise i h
  exact ⟨by rw [accum_col_length]; rfl, h1, h2, h3⟩

/-- Witness for C1 at the concrete input `accumExample`, `constNoise`,
year index 0. -/
theorem c1_percentiles_nearest_rank_witness :
    0 < (accumExample.retirementAge - accumExample.age).toNat ∧
    (simulateAccumulation accumExample constNoise).p50.getD 0 0 =
      (sortQ ((accumResults accumExample constNoise).map fun run =>
        run.getD 0 0)).getD 500 0 :=
  ⟨by decide,
    (c1_percentiles_nearest_rank accumExample constNoise 0 (by decide)).2.2.1⟩

/-- Claim C5: for every accumulation run and every year index,
`p25[i] ≤ p50[i] ≤ p75[i]`: the three values are read from the same
ascending-sorted list at the increasing indices 250 ≤ 500 ≤ 750. -/
theorem c5_percentile_ordering (inp : AccumInput) (noise : ℕ → ℕ → ℚ)
    (i : ℕ) (h : i < (inp.retirementAge - inp.age).toNat) :
    (simulateAccumulation inp noise).p25.getD i 0 ≤
      (simulateAccumulation inp noise).p50.getD i 0 ∧
    (simulateAccumulation inp noise).p50.getD i 0 ≤
      (simulateAccumulation inp noise).p75.getD i 0 := by
  obtain ⟨h1, h2, h3⟩ := accum_percentiles_getD inp noise i h
  have hlen :
      (sortQ ((accumResults inp noise).map fun run => run.getD i 0)).length
        = simulations := by
    rw [sortQ_length, accum_col_length]
  constructor
  · rw [h1, h2]
    exact sorted_getD_mono _ (sortQ_sorted _) 250 500 (by norm_num)
      (by rw [hlen]; norm_num [simulations])
  · rw [h2, h3]
    exact sorted_getD_mono _ (sortQ_sorted _) 500 750 (by norm_num)
      (by rw [hlen]; norm_num [simulations])

/-- Witness for C5 at the concrete input `accumExample`, `constNoise`,
year index 0. -/
theorem c5_percentile_ordering_witness :
    0 < (accumExample.retirementAge - accumExample.age).toNat ∧
    (simulateAccumulation accumExample constNoise).p25.getD 0 0 ≤
      (simulateAccumulation accumExample constNoise).p50.getD 0 0 :=
  ⟨by decide, (c5_percentile_ordering accumExample constNoise 0 (by decide)).1⟩

/-- A concrete accumulation input whose years count
`retirementAge - age` is negative. -/
def accumExampleLate : AccumInput :=
  { fundSelection := .fa5
    age := 70
    retirementAge := 65
    salary := 30000
    currentPot := 10000
    contributionRate := 10
    inflationRate := 2 }

/-- Claim C8: each accumulation output sequence has length exactly
`years = retirementAge - age` when `years > 0`, and when `years ≤ 0`
the simulator returns empty sequences without failing. -/
theorem c8_output_lengths (inp : AccumInput) (noise : ℕ → ℕ → ℚ) :
    (0 < inp.retirementAge - inp.age →
      ((simulateAccumulation inp noise).p25.length : ℤ) =
          inp.retirementAge - inp.age ∧
      ((simulateAccumulation inp noise).p50.length : ℤ) =
          inp.retirementAge - inp.age ∧
      ((simulateAccumulation inp noise).p75.length : ℤ) =
          inp.retirementAge - inp.age) ∧
    (inp.retirementAge - inp.age ≤ 0 →
      (simulateAccumulation inp noise).p25 = [] ∧
      (simulateAccumulation inp noise).p50 = [] ∧
      (simulateAccumulation inp noise).p75 = []) := by
  constructor
  · intro hy
    rw [simulateAccumulation_p25_length, simulateAccumulation_p50_length,
      simulateAccumulation_p75_length, Int.toNat_of_nonneg (le_of_lt hy)]
    exact ⟨rfl, rfl, rfl⟩
  · intro hy
    have h0 : (inp.retirementAge - inp.age).toNat = 0 :=
      Int.toNat_eq_zero.mpr hy
    refine ⟨?_, ?_, ?_⟩
    · rw [← List.length_eq_zero, simulateAccumulation_p25_length, h0]
    · rw [← List.length_eq_zero, simulateAccumulation_p50_length, h0]
    · rw [← List.length_eq_zero, simulateAccumulation_p75_length, h0]

/-- Witness for C8: the positive-years part at `accumExample`
(years = 2) and the non-positive part at `accumExampleLate`
(years = -5). -/
theorem c8_output_lengths_witness :
    (0 < accumExample.retirementAge - accumExample.age ∧
      ((simulateAccumulation accumExample constNoise).p50.length : ℤ) =
        accumExample.retirementAge - accumExample.age) ∧
    (accumExampleLate.retirementAge - accumExampleLate.age ≤ 0 ∧
      (simulateAccumulation accumExampleLate constNoise).p50 = []) :=
  ⟨⟨by decide,
      ((c8_output_lengths accumExample constNoise).1 (by decide)).2.1⟩,
    ⟨by decide,
      ((c8_output_lengths accumExampleLate constNoise).2 (by decide)).2.1⟩⟩

theorem forall₂_countP_le (x : ℚ) :
    ∀ {A B : List ℚ}, List.Forall₂ (· ≤ ·) A B →
      B.countP (fun b => decide (b ≤ x)) ≤
        A.countP (fun a => decide (a ≤ x)) := by
  intro A B h
  induction h with
  | nil => simp
  | @cons a b A' B' hab _ ih =>
    rw [List.countP_cons, List.countP_cons]
    simp only [decide_eq_true_eq]
    by_cases hb : b ≤ x
    · rw [if_pos hb, if_pos (le_trans hab hb)]
      omega
    · rw [if_neg hb]
      exact le_trans (by omega) (Nat.le_add_right _ _)

theorem sorted_rank_le_countP (s : List ℚ) (hs : s.Sorted (· ≤ ·)) (k : ℕ)
    (hk : k < s.length) :
    k + 1 ≤ s.countP fun a => decide (a ≤ s.get ⟨k, hk⟩) := by
  have htake : ∀ a ∈ s.take (k + 1),
      (fun a => decide (a ≤ s.get ⟨k, hk⟩)) a = true := by
    intro a ha
    obtain ⟨j, hj, rfl⟩ := List.mem_iff_getElem.mp ha
    have hjk : j ≤ k := by
      have := hj
      rw [List.length_take] at this
      omega
    rw [List.getElem_take]
    simp only [decide_eq_true_eq]
    exact hs.rel_get_of_le (a := ⟨j, by omega⟩) (b := ⟨k, hk⟩) hjk
  calc k + 1 = (s.take (k + 1)).length := by rw [List.length_take]; omega
    _ = (List.filter (fun a => decide (a ≤ s.get ⟨k, hk⟩))
          (s.take (k + 1))).length := by rw [List.filter_eq_self.mpr htake]
    _ ≤ (List.filter (fun a => decide (a ≤ s.get ⟨k, hk⟩)) s).length :=
        ((List.take_sublist (k + 1) s).filter _).length_le
    _ = s.countP fun a => decide (a ≤ s.get ⟨k, hk⟩) :=
        (List.countP_eq_length_filter _ s).symm

theorem countP_le_sorted_rank (s : List ℚ) (hs : s.Sorted (· ≤ ·)) (k : ℕ)
    (hk : k < s.length) (x : ℚ)
    (h : k + 1 ≤ s.countP fun a => decide (a ≤ x)) : s.get ⟨k, hk⟩ ≤ x := by
  by_contra hlt
  push_neg at hlt
  have hdrop : ∀ a ∈ s.drop k, ¬((fun a => decide (a ≤ x)) a = true) := by
    intro a ha
    obtain ⟨j, hj, rfl⟩ := List.mem_iff_getElem.mp ha
    rw [List.getElem_drop]
    simp only [decide_eq_true_eq, not_le]
    have hkj : k + j < s.length := by
      have := hj
      rw [List.length_drop] at this
      omega
    calc x < s.get ⟨k, hk⟩ := hlt
      _ ≤ s.get ⟨k + j, hkj⟩ :=
        hs.rel_get_of_le (a := ⟨k, hk⟩) (b := ⟨k + j, hkj⟩)
          (Nat.le_add_right k j)
      _ = s[k + j] := rfl
  have hsplit : s.countP (fun a => decide (a ≤ x)) =
      (s.take k).countP (fun a => decide (a ≤ x)) +
        (s.drop k).countP fun a => decide (a ≤ x) := by
    conv_lhs => rw [← List.take_append_drop k s]
    rw [List.countP_append]
  have hzero : (s.drop k).countP (fun a => decide (a ≤ x)) = 0 :=
    List.countP_eq_zero.mpr hdrop
  have hle : (s.take k).countP (fun a => decide (a ≤ x)) ≤ k := by
    have h1 : (s.take k).countP (fun a => decide (a ≤ x)) ≤
        (s.take k).length := List.countP_le_length _
    have h2 : (s.take k).length ≤ k := by rw [List.length_take]; omega
    omega
  omega

theorem sortQ_domination {A B : List ℚ} (h : List.Forall₂ (· ≤ ·) A B)
    (k : ℕ) (hA : k < (sortQ A).length) (hB : k < (sortQ B).length) :
    (sortQ A).get ⟨k, hA⟩ ≤ (sortQ B).get ⟨k, hB⟩ := by
  apply countP_le_sorted_rank _ (sortQ_sorted A) k hA
  calc k + 1 ≤ (sortQ B).countP
        (fun a => decide (a ≤ (sortQ B).get ⟨k, hB⟩)) :=
      sorted_rank_le_countP _ (sortQ_sorted B) k hB
    _ = B.countP (fun a => decide (a ≤ (sortQ B).get ⟨k, hB⟩)) :=
      (sortQ_perm B).countP_eq _
    _ ≤ A.countP (fun a => decide (a ≤ (sortQ B).get ⟨k, hB⟩)) :=
      forall₂_countP_le _ h
    _ = (sortQ A).countP (fun a => decide (a ≤ (sortQ B).get ⟨k, hB⟩)) :=
      ((sortQ_perm A).countP_eq _).symm

theorem sortQ_domination_getD {A B : List ℚ}
    (h : List.Forall₂ (· ≤ ·) A B) (k : ℕ) (hA : k < (sortQ A).length)
    (hB : k < (sortQ B).length) :
    (sortQ A).getD k 0 ≤ (sortQ B).getD k 0 := by
  rw [getD_of_lt _ _ hA, getD_of_lt _ _ hB]
  exact sortQ_domination h k hA hB

theorem forall₂_map_of_mem {α : Type} (l : List α) (f g : α → ℚ)
    (h : ∀ a ∈ l, f a ≤ g a) :
    List.Forall₂ (· ≤ ·) (l.map f) (l.map g) := by
  induction l with
  | nil => simp
  | cons a l ih =>
    simp only [List.map_cons, List.forall₂_cons]
    exact ⟨h a (by simp), ih fun b hb => h b (by simp [hb])⟩

theorem accumYears_chain (mr vol rate infl : ℚ) (u : ℕ → ℚ)
    (hrate : 0 ≤ rate) (hinfl : 0 ≤ infl)
    (hret : ∀ y, 0 ≤ mr + vol * u y) :
    ∀ (n y : ℕ) (pot salary : ℚ), 0 ≤ pot → 0 ≤ salary →
      List.Chain (· ≤ ·) pot (accumYears mr vol rate infl u y n pot salary)
    := by
  intro n
  induction n with
  | zero => intro y pot salary _ _; exact List.Chain.nil
  | succ n ih =>
    intro y pot salary hpot hsal
    simp only [accumYears]
    have hc : 0 ≤ salary * rate := mul_nonneg hsal hrate
    have hr := hret y
    have hstep : pot ≤ (pot + salary * rate) * (1 + (mr + vol * u y)) := by
      have h1 : pot ≤ pot + salary * rate := le_add_of_nonneg_right hc
      have h2 : pot + salary * rate ≤
          (pot + salary * rate) * (1 + (mr + vol * u y)) :=
        le_mul_of_one_le_right (by linarith) (by linarith)
      linarith
    have hpot2 : 0 ≤ (pot + salary * rate) * (1 + (mr + vol * u y)) := by
      apply mul_nonneg <;> linarith
    have hsal2 : 0 ≤ salary * (1 + infl) := mul_nonneg hsal (by linarith)
    exact List.Chain.cons hstep (ih (y + 1) _ _ hpot2 hsal2)

theorem accumYears_adjacent_le (mr vol rate infl : ℚ) (u : ℕ → ℚ)
    (hrate : 0 ≤ rate) (hinfl : 0 ≤ infl)
    (hret : ∀ y, 0 ≤ mr + vol * u y) (n y : ℕ) (pot salary : ℚ)
    (hpot : 0 ≤ pot) (hsal : 0 ≤ salary) (i : ℕ) (h : i + 1 < n) :
    (accumYears mr vol rate infl u y n pot salary).getD i 0 ≤
      (accumYears mr vol rate infl u y n pot salary).getD (i + 1) 0 := by
  have hchain := accumYears_chain mr vol rate infl u hrate hinfl hret n y
    pot salary hpot hsal
  have hsorted : (accumYears mr vol rate infl u y n pot salary).Sorted
      (· ≤ ·) := (List.chain_iff_pairwise.mp hchain).of_cons
  exact sorted_getD_mono _ hsorted i (i + 1) (by omega)
    (by rw [accumYears_length]; omega)

/-- Claim C7 is false as stated (see the counterexample); this is the
amended claim: the three percentile series are non-decreasing in the
year index provided every drawn annual return
`meanReturn + volatility * noise` is non-negative (with the validated
sign conditions on salary, pot, contribution rate and inflation).  With
a drawn return below 0 — possible for every fund of the table, whose
volatility exceeds its mean return — a year's pot can shrink, and the
percentile series can dip. -/
theorem c7_amended_nondecreasing (inp : AccumInput) (noise : ℕ → ℕ → ℚ)
    (hsal : 0 ≤ inp.salary) (hpot : 0 ≤ inp.currentPot)
    (hrate : 0 ≤ inp.contributionRate) (hinfl : 0 ≤ inp.inflationRate)
    (hret : ∀ k y : ℕ, 0 ≤ (fundData inp.fundSelection).ret +
      (fundData inp.fundSelection).volatility * noise k y)
    (i : ℕ) (h : i + 1 < (inp.retirementAge - inp.age).toNat) :
    (simulateAccumulation inp noise).p25.getD i 0 ≤
      (simulateAccumulation inp noise).p25.getD (i + 1) 0 ∧
    (simulateAccumulation inp noise).p50.getD i 0 ≤
      (simulateAccumulation inp noise).p50.getD (i + 1) 0 ∧
    (simulateAccumulation inp noise).p75.getD i 0 ≤
      (simulateAccumulation inp noise).p75.getD (i + 1) 0 := by
  have hi : i < (inp.retirementAge - inp.age).toNat := by omega
  obtain ⟨a25, a50, a75⟩ := accum_percentiles_getD inp noise i hi
  obtain ⟨b25, b50, b75⟩ := accum_percentiles_getD inp noise (i + 1) h
  have hforall : List.Forall₂ (· ≤ ·)
      ((accumResults inp noise).map fun run => run.getD i 0)
      ((accumResults inp noise).map fun run => run.getD (i + 1) 0) := by
    apply forall₂_map_of_mem
    intro run hrun
    simp only [accumResults, List.mem_map] at hrun
    obtain ⟨k, -, rfl⟩ := hrun
    exact accumYears_adjacent_le _ _ _ _ _
      (div_nonneg hrate (by norm_num)) (div_nonneg hinfl (by norm_num))
      (hret k) _ _ _ _ hpot hsal i h
  have hA : ∀ m : ℕ, m < simulations →
      m < (sortQ ((accumResults inp noise).map fun run =>
        run.getD i 0)).length := by
    intro m hm
    rw [sortQ_length, accum_col_length]
    exact hm
  have hB : ∀ m : ℕ, m < simulations →
      m < (sortQ ((accumResults inp noise).map fun run =>
        run.getD (i + 1) 0)).length := by
    intro m hm
    rw [sortQ_length, accum_col_length]
    exact hm
  refine ⟨?_, ?_, ?_⟩
  · rw [a25, b25]
    exact sortQ_domination_getD hforall 250
      (hA 250 (by norm_num [simulations]))
      (hB 250 (by norm_num [simulations]))
  · rw [a50, b50]
    exact sortQ_domination_getD hforall 500
      (hA 500 (by norm_num [simulations]))
      (hB 500 (by norm_num [simulations]))
  · rw [a75, b75]
    exact sortQ_domination_getD hforall 750
      (hA 750 (by norm_num [simulations]))
      (hB 750 (by norm_num [simulations]))

theorem sortQ_replicate (n : ℕ) (x : ℚ) :
    sortQ (List.replicate n x) = List.replicate n x :=
  List.eq_of_perm_of_sorted (sortQ_perm _) (sortQ_sorted _)
    (List.pairwise_replicate.mpr (Or.inr le_rfl))

theorem getD_replicate_of_lt (n k : ℕ) (x : ℚ) (h : k < n) :
    (List.replicate n x).getD k 0 = x := by
  rw [getD_of_lt _ _ (by rw [List.length_replicate]; exact h)]
  rw [List.get_eq_getElem]
  exact List.getElem_replicate x _

theorem accumResults_constNoise :
    accumResults accumExample constNoise =
      List.replicate simulations
        (accumYears (fundData accumExample.fundSelection).ret
          (fundData accumExample.fundSelection).volatility
          (accumExample.contributionRate / 100)
          (accumExample.inflationRate / 100) (fun _ => (-1 : ℚ)) 0
          (accumExample.retirementAge - accumExample.age).toNat
          accumExample.currentPot accumExample.salary) := by
  have h : (fun i : ℕ =>
      accumYears (fundData accumExample.fundSelection).ret
        (fundData accumExample.fundSelection).volatility
        (accumExample.contributionRate / 100)
        (accumExample.inflationRate / 100) (constNoise i) 0
        (accumExample.retirementAge - accumExample.age).toNat
        accumExample.currentPot accumExample.salary) =
      fun _ : ℕ =>
      accumYears (fundData accumExample.fundSelection).ret
        (fundData accumExample.fundSelection).volatility
        (accumExample.contributionRate / 100)
        (accumExample.inflationRate / 100) (fun _ => (-1 : ℚ)) 0
        (accumExample.retirementAge - accumExample.age).toNat
        accumExample.currentPot accumExample.salary := rfl
  show (List.range simulations).map _ = _
  rw [h, List.map_const', List.length_range]

theorem c7_col (i : ℕ) :
    ((accumResults accumExample constNoise).map fun run => run.getD i 0) =
      List.replicate simulations
        ((accumYears (fundData accumExample.fundSelection).ret
          (fundData accumExample.fundSelection).volatility
          (accumExample.contributionRate / 100)
          (accumExample.inflationRate / 100) (fun _ => (-1 : ℚ)) 0
          (accumExample.retirementAge - accumExample.age).toNat
          accumExample.currentPot accumExample.salary).getD i 0) := by
  rw [accumResults_constNoise, List.map_replicate]

theorem c7_path_values :
    (accumYears (fundData accumExample.fundSelection).ret
      (fundData accumExample.fundSelection).volatility
      (accumExample.contributionRate / 100)
      (accumExample.inflationRate / 100) (fun _ => (-1 : ℚ)) 0
      (accumExample.retirementAge - accumExample.age).toNat
      accumExample.currentPot accumExample.salary).getD 1 0 <
    (accumYears (fundData accumExample.fundSelection).ret
      (fundData accumExample.fundSelection).volatility
      (accumExample.contributionRate / 100)
      (accumExample.inflationRate / 100) (fun _ => (-1 : ℚ)) 0
      (accumExample.retirementAge - accumExample.age).toNat
      accumExample.currentPot accumExample.salary).getD 0 0 := by
  have hyears : (accumExample.retirementAge - accumExample.age).toNat = 2 :=
    by decide
  rw [hyears]
  simp only [accumYears, accumExample, fundData]
  norm_num

/-- The range and sign constraints the validator imposes on the
accumulation inputs (lines 121-136 of the source). -/
def ValidAccumInput (inp : AccumInput) : Prop :=
  0 < inp.age ∧ inp.age < inp.retirementAge ∧ 0 < inp.salary ∧
  0 ≤ inp.currentPot ∧ 0 < inp.contributionRate ∧
  inp.contributionRate ≤ 100 ∧ 0 ≤ inp.inflationRate ∧
  inp.inflationRate ≤ 20

/-- Counterexample to claim C7 as stated: `accumExample` passes every
validator constraint and `constNoise` is a realizable noise (every draw
is `-1`, the value of `Math.random() * 2 - 1` at `Math.random() = 0`, so
every drawn annual return is `0.025 - 0.05 = -0.025`), yet the p50
accumulation series strictly decreases from year 0 to year 1.  The
percentile series are therefore not always non-decreasing. -/
theorem c7_counterexample :
    ValidAccumInput accumExample ∧
    (∀ k y : ℕ, -1 ≤ constNoise k y ∧ constNoise k y < 1) ∧
    (simulateAccumulation accumExample constNoise).p50.getD 1 0 <
      (simulateAccumulation accumExample constNoise).p50.getD 0 0 := by
  refine ⟨by norm_num [ValidAccumInput, accumExample],
    fun k y => by norm_num [constNoise], ?_⟩
  have h0 := (accum_percentiles_getD accumExample constNoise 0
    (by decide)).2.1
  have h1 := (accum_percentiles_getD accumExample constNoise 1
    (by decide)).2.1
  rw [h0, h1, c7_col 0, c7_col 1, sortQ_replicate, sortQ_replicate]
  rw [getD_replicate_of_lt _ _ _ (by norm_num [simulations]),
    getD_replicate_of_lt _ _ _ (by norm_num [simulations])]
  exact c7_path_values

/-- Zero noise (the value of `Math.random() * 2 - 1` at
`Math.random() = 0.5`): every drawn return equals the fund's mean. -/
def zeroNoise : ℕ → ℕ → ℚ := fun _ _ => 0

/-- Witness for the amended C7 at `accumExample` with `zeroNoise`. -/
theorem c7_amended_nondecreasing_witness :
    (0 : ℚ) ≤ accumExample.salary ∧
    (simulateAccumulation accumExample zeroNoise).p50.getD 0 0 ≤
      (simulateAccumulation accumExample zeroNoise).p50.getD 1 0 :=
  ⟨by norm_num [accumExample],
    (c7_amended_nondecreasing accumExample zeroNoise
      (by norm_num [accumExample]) (by norm_num [accumExample])
      (by norm_num [accumExample]) (by norm_num [accumExample])
      (fun k y => by norm_num [accumExample, fundData, zeroNoise]) 0
      (by decide)).2.1⟩

/-- A concrete decumulation input used to instantiate hypotheses. -/
def decumExample : DecumInput :=
  { numFunds := 2
    funds := [.fa1, .fa3]
    drawdownType := .percentage
    drawdownPercentage := 4
    drawdownFixed := 0
    drawdownInitialPotPercentage := 0
    inflationRate := 2
    ageToLowRiskFund := 75
    retirementAge := 65
    includeStatePension := .standard
    customStatePensionAnnual := 0 }

/-- Claim C6: for an absent, non-numeric or non-positive starting pot,
the decumulation simulator returns the fixed degenerate result — one
year of zero balances for a single fund and singleton zero series —
without running the monthly loop, and every value of every returned
series is zero. -/
theorem c6_degenerate_starting_pot (inp : DecumInput) :
    simulateDecumulation inp none = degenerateResult ∧
    (∀ p : ℚ, p ≤ 0 → simulateDecumulation inp (some p) = degenerateResult)
      ∧
    (∀ l ∈ degenerateResult.funds, ∀ q ∈ l, q = 0) ∧
    (∀ q ∈ degenerateResult.withdrawals, q = 0) ∧
    (∀ q ∈ degenerateResult.annualWithdrawals, q = 0) ∧
    (∀ q ∈ degenerateResult.statePensionMonthlyValues, q = 0) ∧
    (∀ q ∈ degenerateResult.statePensionAnnualValues, q = 0) := by
  refine ⟨rfl, fun p hp => ?_, ?_, ?_, ?_, ?_, ?_⟩
  · show (if p ≤ 0 then degenerateResult else _) = degenerateResult
    rw [if_pos hp]
  · intro l hl q hq
    have hl2 : l = List.replicate 12 0 := by
      simpa [degenerateResult] using hl
    rw [hl2] at hq
    exact List.eq_of_mem_replicate hq
  · intro q hq
    simpa [degenerateResult] using hq
  · intro q hq
    simpa [degenerateResult] using hq
  · intro q hq
    simpa [degenerateResult] using hq
  · intro q hq
    simpa [degenerateResult] using hq

/-- Witness for C6 at `decumExample` with starting pot 0. -/
theorem c6_degenerate_starting_pot_witness :
    (0 : ℚ) ≤ 0 ∧ simulateDecumulation decumExample (some 0) =
      degenerateResult :=
  ⟨le_refl 0, (c6_degenerate_starting_pot decumExample).2.1 0 (le_refl 0)⟩

/-- Claim C9: when at least one required field (including the
conditionally required ones) is missing or non-numeric, the validator
reports exactly the stage-(a) errors — the missing/non-numeric fields —
and none of the stage-(b) range/logic errors. -/
theorem c9_stage_a_short_circuit (r : RawInput) (f0 : FormField)
    (h : (f0, (none : Option ℚ)) ∈ requiredFields r) :
    validateInputs r = stageAErrors r ∧
    ∀ f : FormField,
      f ∈ validateInputs r ↔ (f, (none : Option ℚ)) ∈ requiredFields r
    := by
  have hmem : ∀ f : FormField,
      f ∈ stageAErrors r ↔ (f, (none : Option ℚ)) ∈ requiredFields r := by
    intro f
    constructor
    · intro hf
      rw [stageAErrors, List.mem_filterMap] at hf
      obtain ⟨⟨g, v⟩, hg, he⟩ := hf
      by_cases hv : v = none
      · subst hv
        rw [if_pos rfl] at he
        obtain rfl := Option.some.inj he
        exact hg
      · rw [if_neg hv] at he
        exact absurd he (Option.noConfusion)
    · intro hf
      rw [stageAErrors, List.mem_filterMap]
      exact ⟨(f, none), hf, by simp⟩
  have hne : stageAErrors r ≠ [] := by
    intro hnil
    have hin := (hmem f0).mpr h
    rw [hnil] at hin
    exact List.not_mem_nil _ hin
  have hval : validateInputs r = stageAErrors r := by
    show (if stageAErrors r ≠ [] then stageAErrors r else stageBErrors r)
      = stageAErrors r
    rw [if_pos hne]
  exact ⟨hval, fun f => by rw [hval]; exact hmem f⟩

/-- A concrete raw input whose current-age field is empty and all other
fields parse. -/
def rawMissingAge : RawInput :=
  { age := none
    salary := some 30000
    currentPot := some 10000
    contributionRate := some 10
    retirementAge := some 65
    ageToLowRiskFund := some 75
    inflationRate := some 2
    numFunds := some 3
    drawdownType := .percentage
    drawdownPercentage := some 4
    drawdownFixed := none
    drawdownInitialPotPercentage := none
    includeStatePension := .no
    customStatePensionAnnual := none }

/-- Witness for C9 at `rawMissingAge`. -/
theorem c9_stage_a_short_circuit_witness :
    (FormField.age, (none : Option ℚ)) ∈ requiredFields rawMissingAge ∧
    validateInputs rawMissingAge = stageAErrors rawMissingAge :=
  ⟨by decide,
    (c9_stage_a_short_circuit rawMissingAge FormField.age (by decide)).1⟩

/-- A concrete raw input with `retirementAge = 105`: every field parses
and every range check passes — the validator has no upper bound on the
retirement age. -/
def raw105 : RawInput :=
  { age := some 30
    salary := some 30000
    currentPot := some 10000
    contributionRate := some 10
    retirementAge := some 105
    ageToLowRiskFund := some 110
    inflationRate := some 2
    numFunds := some 3
    drawdownType := .percentage
    drawdownPercentage := some 4
    drawdownFixed := none
    drawdownInitialPotPercentage := none
    includeStatePension := .no
    customStatePensionAnnual := none }

/-- Claim C10 (implicit): validation places no upper bound on the
retirement age (`raw105`, with retirement age 105, passes), and for any
retirement age ≥ 100 with a positive starting pot,
`maxMonths = (100 - retirementAge) * 12 ≤ 0`, the monthly loop never
executes and `simulateDecumulation` returns completely empty series —
not the all-zero single-period degenerate result reserved for
non-positive pots. -/
theorem c10_no_upper_age_bound_empty_series :
    validateInputs raw105 = [] ∧
    ∀ (inp : DecumInput) (p : ℚ), 100 ≤ inp.retirementAge → 0 < p →
      (simulateDecumulation inp (some p)).funds =
          List.replicate inp.numFunds [] ∧
      (simulateDecumulation inp (some p)).withdrawals = [] ∧
      (simulateDecumulation inp (some p)).annualWithdrawals = [] ∧
      (simulateDecumulation inp (some p)).statePensionMonthlyValues = [] ∧
      (simulateDecumulation inp (some p)).statePensionAnnualValues = []
    := by
  constructor
  · decide
  · intro inp p h100 hp
    have hfuel : (maxMonths inp).toNat = 0 := by
      rw [Int.toNat_eq_zero]
      have h1 : 100 - inp.retirementAge ≤ 0 := by omega
      have h2 : (100 - inp.retirementAge) * 12 ≤ 0 * 12 :=
        mul_le_mul_of_nonneg_right h1 (by norm_num)
      simpa [maxMonths] using h2
    have hresult : simulateDecumulation inp (some p) =
        { funds := List.replicate inp.numFunds []
          withdrawals := []
          annualWithdrawals := []
          statePensionMonthlyValues := []
          statePensionAnnualValues := [] } := by
      show (if p ≤ 0 then degenerateResult else _) = _
      rw [if_neg (not_le.mpr hp), hfuel]
      rfl
    rw [hresult]
    exact ⟨rfl, rfl, rfl, rfl, rfl⟩

/-- A concrete decumulation input with retirement age 105. -/
def decumExample105 : DecumInput :=
  { numFunds := 3
    funds := [.fa1, .fa3, .fa5]
    drawdownType := .percentage
    drawdownPercentage := 4
    drawdownFixed := 0
    drawdownInitialPotPercentage := 0
    inflationRate := 2
    ageToLowRiskFund := 110
    retirementAge := 105
    includeStatePension := .no
    customStatePensionAnnual := 0 }

/-- Witness for C10 at `decumExample105` with starting pot 1000. -/
theorem c10_no_upper_age_bound_empty_series_witness :
    (100 : ℤ) ≤ decumExample105.retirementAge ∧ (0 : ℚ) < 1000 ∧
    (simulateDecumulation decumExample105 (some 1000)).withdrawals = [] :=
  ⟨by decide, by norm_num,
    (c10_no_upper_age_bound_empty_series.2 decumExample105 1000 (by decide)
      (by norm_num)).2.1⟩

/-- All fund balances are non-negative. -/
def PotsNonneg (s : DecumState) : Prop := ∀ q ∈ s.pots, 0 ≤ q

theorem potsNonneg_sum {s : DecumState} (h : PotsNonneg s) :
    0 ≤ s.pots.sum :=
  List.sum_nonneg h

theorem potsNonneg_headD {s : DecumState} (h : PotsNonneg s) :
    0 ≤ s.pots.headD 0 := by
  cases hp : s.pots with
  | nil => simp
  | cons a t =>
    have := h a (by rw [hp]; exact List.mem_cons_self a t)
    simpa using this

theorem potsNonneg_getD {s : DecumState} (h : PotsNonneg s) (i : ℕ) :
    0 ≤ s.pots.getD i 0 := by
  by_cases hi : i < s.pots.length
  · rw [getD_of_lt _ _ hi]
    exact h _ (List.get_mem _ _ _)
  · rw [getD_of_le _ _ (by omega)]

theorem potsNonneg_withdrawStep (inp : DecumInput) {s : DecumState}
    (h : PotsNonneg s) : PotsNonneg (withdrawStep inp s) := by
  intro q hq
  rcases List.mem_or_eq_of_mem_set hq with hmem | rfl
  · exact h q hmem
  · have hw : withdrawAmount inp s ≤ s.pots.headD 0 := min_le_right _ _
    linarith

theorem potsNonneg_returnsStep (inp : DecumInput) {s : DecumState}
    (_h : PotsNonneg s) : PotsNonneg (returnsStep inp s) := by
  intro q hq
  obtain ⟨j, hj, rfl⟩ := List.mem_iff_getElem.mp hq
  show (0 : ℚ) ≤ (s.pots.mapIdx _)[j]
  rw [List.getElem_mapIdx]
  exact le_max_left 0 _

theorem potsNonneg_rebalanceStep {s : DecumState} (h : PotsNonneg s) :
    PotsNonneg (rebalanceStep s) := by
  rw [rebalanceStep]
  split_ifs with h1 h2
  · intro q hq
    rcases List.mem_map.mp hq with ⟨p, -, rfl⟩
    split_ifs with h3
    · exact div_nonneg (potsNonneg_sum h) (Nat.cast_nonneg _)
    · exact le_refl 0
  · exact h
  · exact h

theorem potsNonneg_consolidateStep (inp : DecumInput) (w : ℚ)
    {s : DecumState} (h : PotsNonneg s) :
    PotsNonneg (consolidateStep inp w s) := by
  rw [consolidateStep]
  split_ifs with h1
  · cases hfind : (List.range (inp.numFunds - 1)).find? fun i =>
        !(s.moved.getD i true) && decide (0 < s.pots.getD (i + 1) 0) with
    | none => exact h
    | some i =>
      intro q hq
      rcases List.mem_or_eq_of_mem_set hq with hq2 | rfl
      · rcases List.mem_or_eq_of_mem_set hq2 with hq3 | rfl
        · exact h q hq3
        · have h0 := potsNonneg_headD h
          have hg := potsNonneg_getD h (i + 1)
          linarith
      · exact le_refl 0
  · exact h

theorem potsNonneg_sweepStep (inp : DecumInput) {s : DecumState}
    (h : PotsNonneg s) : PotsNonneg (sweepStep inp s) := by
  rw [sweepStep]
  split_ifs with h1
  · intro q hq
    rcases List.mem_cons.mp hq with rfl | hq2
    · have h0 := potsNonneg_headD h
      have ht : (0 : ℚ) ≤ s.pots.tail.sum :=
        List.sum_nonneg fun x hx => h x (List.mem_of_mem_tail hx)
      linarith
    · rw [List.eq_of_mem_replicate hq2]
  · exact h

theorem potsNonneg_yearEndStep (inp : DecumInput) {s : DecumState}
    (h : PotsNonneg s) : PotsNonneg (yearEndStep inp s) := by
  rw [yearEndStep]
  split_ifs <;> exact h

theorem potsNonneg_recordStep (w : ℚ) {s : DecumState}
    (h : PotsNonneg s) : PotsNonneg (recordStep w s) := h

/-- The state just before the recording phase of a month: withdrawal,
returns, rebalancing, consolidation, sweep and year-end bookkeeping
applied in source order. -/
def preRecordState (inp : DecumInput) (s : DecumState) : DecumState :=
  yearEndStep inp
    (sweepStep inp
      (consolidateStep inp (withdrawAmount inp s)
        (rebalanceStep (returnsStep inp (withdrawStep inp s)))))

theorem monthBody_pots (inp : DecumInput) (s : DecumState) :
    (monthBody inp s).pots = (preRecordState inp s).pots := rfl

theorem rebalanceStep_rec (s : DecumState) :
    (rebalanceStep s).recFunds = s.recFunds ∧
    (rebalanceStep s).recW = s.recW ∧
    (rebalanceStep s).months = s.months ∧
    (rebalanceStep s).recAnnualW = s.recAnnualW := by
  rw [rebalanceStep]
  split_ifs <;> exact ⟨rfl, rfl, rfl, rfl⟩

theorem consolidateStep_rec (inp : DecumInput) (w : ℚ) (s : DecumState) :
    (consolidateStep inp w s).recFunds = s.recFunds ∧
    (consolidateStep inp w s).recW = s.recW ∧
    (consolidateStep inp w s).months = s.months ∧
    (consolidateStep inp w s).recAnnualW = s.recAnnualW := by
  rw [consolidateStep]
  split_ifs
  · cases (List.range (inp.numFunds - 1)).find? fun i =>
        !(s.moved.getD i true) && decide (0 < s.pots.getD (i + 1) 0) with
    | none => exact ⟨rfl, rfl, rfl, rfl⟩
    | some i => exact ⟨rfl, rfl, rfl, rfl⟩
  · exact ⟨rfl, rfl, rfl, rfl⟩

theorem sweepStep_rec (inp : DecumInput) (s : DecumState) :
    (sweepStep inp s).recFunds = s.recFunds ∧
    (sweepStep inp s).recW = s.recW ∧
    (sweepStep inp s).months = s.months ∧
    (sweepStep inp s).recAnnualW = s.recAnnualW := by
  rw [sweepStep]
  split_ifs <;> exact ⟨rfl, rfl, rfl, rfl⟩

theorem yearEndStep_rec (inp : DecumInput) (s : DecumState) :
    (yearEndStep inp s).recFunds = s.recFunds ∧
    (yearEndStep inp s).recW = s.recW ∧
    (yearEndStep inp s).months = s.months := by
  rw [yearEndStep]
  split_ifs <;> exact ⟨rfl, rfl, rfl⟩

theorem monthBody_months (inp : DecumInput) (s : DecumState) :
    (monthBody inp s).months = s.months + 1 := by
  show (preRecordState inp s).months + 1 = s.months + 1
  rw [preRecordState, (yearEndStep_rec inp _).2.2, (sweepStep_rec inp _).2.2.1,
    (consolidateStep_rec inp _ _).2.2.1, (rebalanceStep_rec _).2.2.1]
  rfl

theorem monthBody_recFunds (inp : DecumInput) (s : DecumState) :
    (monthBody inp s).recFunds =
      List.zipWith (fun l p => l ++ [p]) (preRecordState inp s).recFunds
        (preRecordState inp s).pots := rfl

theorem monthBody_recW (inp : DecumInput) (s : DecumState) :
    (monthBody inp s).recW =
      (preRecordState inp s).recW ++ [withdrawAmount inp s] := rfl

theorem preRecordState_recFunds (inp : DecumInput) (s : DecumState) :
    (preRecordState inp s).recFunds = s.recFunds := by
  rw [preRecordState, (yearEndStep_rec inp _).1, (sweepStep_rec inp _).1,
    (consolidateStep_rec inp _ _).1, (rebalanceStep_rec _).1]
  rfl

theorem preRecordState_recW (inp : DecumInput) (s : DecumState) :
    (preRecordState inp s).recW = s.recW := by
  rw [preRecordState, (yearEndStep_rec inp _).2.1, (sweepStep_rec inp _).2.1,
    (consolidateStep_rec inp _ _).2.1, (rebalanceStep_rec _).2.1]
  rfl

theorem preRecordState_months (inp : DecumInput) (s : DecumState) :
    (preRecordState inp s).months = s.months := by
  rw [preRecordState, (yearEndStep_rec inp _).2.2, (sweepStep_rec inp _).2.2.1,
    (consolidateStep_rec inp _ _).2.2.1, (rebalanceStep_rec _).2.2.1]
  rfl

theorem potsNonneg_preRecordState (inp : DecumInput) {s : DecumState}
    (h : PotsNonneg s) : PotsNonneg (preRecordState inp s) :=
  potsNonneg_yearEndStep inp
    (potsNonneg_sweepStep inp
      (potsNonneg_consolidateStep inp _
        (potsNonneg_rebalanceStep
          (potsNonneg_returnsStep inp
            (potsNonneg_withdrawStep inp h)))))

theorem potsNonneg_monthBody (inp : DecumInput) {s : DecumState}
    (h : PotsNonneg s) : PotsNonneg (monthBody inp s) := by
  intro q hq
  rw [monthBody_pots] at hq
  exact potsNonneg_preRecordState inp h q hq

theorem rebalanceStep_curFixed (s : DecumState) :
    (rebalanceStep s).curFixed = s.curFixed := by
  rw [rebalanceStep]
  split_ifs <;> rfl

theorem consolidateStep_curFixed (inp : DecumInput) (w : ℚ)
    (s : DecumState) : (consolidateStep inp w s).curFixed = s.curFixed := by
  rw [consolidateStep]
  split_ifs
  · cases (List.range (inp.numFunds - 1)).find? fun i =>
        !(s.moved.getD i true) && decide (0 < s.pots.getD (i + 1) 0) with
    | none => rfl
    | some i => rfl
  · rfl

theorem sweepStep_curFixed (inp : DecumInput) (s : DecumState) :
    (sweepStep inp s).curFixed = s.curFixed := by
  rw [sweepStep]
  split_ifs <;> rfl

theorem yearEndStep_curFixed_nonneg (inp : DecumInput)
    (hinfl : 0 ≤ inp.inflationRate) {s : DecumState}
    (h : 0 ≤ s.curFixed) : 0 ≤ (yearEndStep inp s).curFixed := by
  rw [yearEndStep]
  have h4 : (0 : ℚ) ≤ 1 + inp.inflationRate / 100 := by positivity
  split_ifs <;> first | exact h | exact mul_nonneg h h4

/-- The loop invariant behind claim C3: all balances non-negative and
the current fixed drawdown amount non-negative. -/
def DecumInv (s : DecumState) : Prop := PotsNonneg s ∧ 0 ≤ s.curFixed

theorem monthBody_curFixed (inp : DecumInput) (s : DecumState) :
    (monthBody inp s).curFixed = (preRecordState inp s).curFixed := rfl

theorem decumInv_monthBody (inp : DecumInput)
    (hinfl : 0 ≤ inp.inflationRate) {s : DecumState} (h : DecumInv s) :
    DecumInv (monthBody inp s) := by
  constructor
  · exact potsNonneg_monthBody inp h.1
  · rw [monthBody_curFixed, preRecordState]
    apply yearEndStep_curFixed_nonneg inp hinfl
    rw [sweepStep_curFixed, consolidateStep_curFixed,
      rebalanceStep_curFixed]
    exact h.2

theorem baseDrawdownFixed_nonneg (inp : DecumInput) (p : ℚ)
    (hp : 0 ≤ p) (hfix : 0 ≤ inp.drawdownFixed)
    (hipp : 0 ≤ inp.drawdownInitialPotPercentage) :
    0 ≤ baseDrawdownFixed inp p := by
  rw [baseDrawdownFixed]
  split_ifs
  · exact hfix
  · positivity
  · exact le_refl 0

theorem decumInv_initState (inp : DecumInput) (p : ℚ) (hp : 0 ≤ p)
    (hfix : 0 ≤ inp.drawdownFixed)
    (hipp : 0 ≤ inp.drawdownInitialPotPercentage) :
    DecumInv (initState inp p) := by
  constructor
  · intro q hq
    rw [List.eq_of_mem_replicate hq]
    positivity
  · exact baseDrawdownFixed_nonneg inp p hp hfix hipp

theorem decumInv_stateSeq (inp : DecumInput) (p : ℚ) (hp : 0 ≤ p)
    (hfix : 0 ≤ inp.drawdownFixed)
    (hipp : 0 ≤ inp.drawdownInitialPotPercentage)
    (hinfl : 0 ≤ inp.inflationRate) (n : ℕ) :
    DecumInv (stateSeq inp p n) := by
  induction n with
  | zero => exact decumInv_initState inp p hp hfix hipp
  | succ n ih =>
    rw [stateSeq, Function.iterate_succ_apply']
    exact decumInv_monthBody inp hinfl ih

theorem policyWithdrawal_nonneg (inp : DecumInput)
    (hpct : 0 ≤ inp.drawdownPercentage) {s : DecumState}
    (h : DecumInv s) : 0 ≤ policyWithdrawal inp s := by
  rw [policyWithdrawal]
  split_ifs
  · refine mul_nonneg (potsNonneg_sum h.1) ?_
    rw [drawdownRate, if_pos ‹_›]
    positivity
  · exact h.2

theorem withdrawAmount_nonneg (inp : DecumInput)
    (hpct : 0 ≤ inp.drawdownPercentage) {s : DecumState}
    (h : DecumInv s) : 0 ≤ withdrawAmount inp s :=
  le_min (policyWithdrawal_nonneg inp hpct h) (potsNonneg_headD h.1)

theorem withdrawStep_headD_nonneg (inp : DecumInput) {s : DecumState}
    (_h : DecumInv s) : 0 ≤ (withdrawStep inp s).pots.headD 0 := by
  show 0 ≤ (s.pots.set 0 (s.pots.headD 0 - withdrawAmount inp s)).headD 0
  have hw : withdrawAmount inp s ≤ s.pots.headD 0 := min_le_right _ _
  cases hp : s.pots with
  | nil => simp
  | cons a t =>
    rw [hp] at hw
    simp only [List.set_cons_zero, List.headD_cons] at hw ⊢
    linarith

theorem withdrawStep_sum_le (inp : DecumInput)
    (hpct : 0 ≤ inp.drawdownPercentage) {s : DecumState}
    (h : DecumInv s) : (withdrawStep inp s).pots.sum ≤ s.pots.sum := by
  show (s.pots.set 0 (s.pots.headD 0 - withdrawAmount inp s)).sum ≤
    s.pots.sum
  have hw := withdrawAmount_nonneg inp hpct h
  cases hp : s.pots with
  | nil => simp
  | cons a t =>
    simp only [List.set_cons_zero, List.headD_cons, List.sum_cons]
    linarith

theorem withdrawStep_getD_tail (inp : DecumInput) (s : DecumState)
    (i : ℕ) (hi : 1 ≤ i) :
    (withdrawStep inp s).pots.getD i 0 = s.pots.getD i 0 := by
  show (s.pots.set 0 (s.pots.headD 0 - withdrawAmount inp s)).getD i 0 = _
  rw [List.getD_eq_getElem?_getD, List.getD_eq_getElem?_getD,
    List.getElem?_set_ne (by omega)]

/-- Claim C3: in every month of the decumulation simulation, the
withdrawal actually taken equals the minimum of the policy-computed
amount and fund 0's current balance, it is subtracted from fund 0 only
(funds with index ≥ 1 are untouched by the withdrawal step), fund 0's
balance stays non-negative, and the total pot immediately after the
withdrawal step — before returns are applied — is at most the total pot
before it.  `stateSeq inp p n` is the state at entry of month `n`. -/
theorem c3_withdrawal_clamp_and_monotone_total (inp : DecumInput) (p : ℚ)
    (hp : 0 ≤ p) (hpct : 0 ≤ inp.drawdownPercentage)
    (hfix : 0 ≤ inp.drawdownFixed)
    (hipp : 0 ≤ inp.drawdownInitialPotPercentage)
    (hinfl : 0 ≤ inp.inflationRate) (n : ℕ) :
    withdrawAmount inp (stateSeq inp p n) =
      min (policyWithdrawal inp (stateSeq inp p n))
        ((stateSeq inp p n).pots.headD 0) ∧
    0 ≤ (withdrawStep inp (stateSeq inp p n)).pots.headD 0 ∧
    (withdrawStep inp (stateSeq inp p n)).pots.sum ≤
      (stateSeq inp p n).pots.sum ∧
    ∀ i, 1 ≤ i →
      (withdrawStep inp (stateSeq inp p n)).pots.getD i 0 =
        (stateSeq inp p n).pots.getD i 0 := by
  have hinv := decumInv_stateSeq inp p hp hfix hipp hinfl n
  exact ⟨rfl, withdrawStep_headD_nonneg inp hinv,
    withdrawStep_sum_le inp hpct hinv,
    fun i hi => withdrawStep_getD_tail inp _ i hi⟩

/-- Witness for C3 at `decumExample`, starting pot 1000, month 0. -/
theorem c3_withdrawal_clamp_and_monotone_total_witness :
    (0 : ℚ) ≤ 1000 ∧
    (withdrawStep decumExample (stateSeq decumExample 1000 0)).pots.sum ≤
      (stateSeq decumExample 1000 0).pots.sum :=
  ⟨by norm_num,
    (c3_withdrawal_clamp_and_monotone_total decumExample 1000 (by norm_num)
      (by norm_num [decumExample]) (by norm_num [decumExample])
      (by norm_num [decumExample]) (by norm_num [decumExample]) 0).2.2.1⟩

theorem decumRun_succ (inp : DecumInput) (f : ℕ) (s : DecumState) :
    decumRun inp (f + 1) s =
      if s.pots.sum ≤ 0 then s
      else
        if (monthBody inp s).pots.sum < 1 then flushAnnual (monthBody inp s)
        else decumRun inp f (monthBody inp s) := rfl

theorem flushAnnual_rec (s : DecumState) :
    (flushAnnual s).recFunds = s.recFunds ∧
    (flushAnnual s).recW = s.recW ∧
    (flushAnnual s).months = s.months ∧
    (flushAnnual s).pots = s.pots := by
  rw [flushAnnual]
  split_ifs <;> exact ⟨rfl, rfl, rfl, rfl⟩

theorem zipWith_append_length {A : List (List ℚ)} {B : List ℚ} {n : ℕ}
    (hA : ∀ l ∈ A, l.length = n) :
    ∀ l ∈ List.zipWith (fun l p => l ++ [p]) A B, l.length = n + 1 := by
  induction A generalizing B with
  | nil => intro l hl; simp at hl
  | cons a A ih =>
    intro l hl
    cases B with
    | nil => simp at hl
    | cons b B =>
      rw [List.zipWith_cons_cons] at hl
      rcases List.mem_cons.mp hl with rfl | hl2
      · rw [List.length_append, hA a (by simp)]
        rfl
      · exact ih (fun x hx => hA x (by simp [hx])) l hl2

theorem recLen_monthBody (inp : DecumInput) {s : DecumState}
    (hf : ∀ l ∈ s.recFunds, l.length = s.months) :
    ∀ l ∈ (monthBody inp s).recFunds,
      l.length = (monthBody inp s).months := by
  intro l hl
  rw [monthBody_recFunds, preRecordState_recFunds] at hl
  rw [monthBody_months]
  exact zipWith_append_length hf l hl

theorem recWLen_monthBody (inp : DecumInput) {s : DecumState}
    (hw : s.recW.length = s.months) :
    (monthBody inp s).recW.length = (monthBody inp s).months := by
  rw [monthBody_recW, preRecordState_recW, monthBody_months,
    List.length_append, hw]
  rfl

theorem decumRun_len (inp : DecumInput) : ∀ (f : ℕ) (s : DecumState),
    (∀ l ∈ s.recFunds, l.length = s.months) → s.recW.length = s.months →
    (∀ l ∈ (decumRun inp f s).recFunds,
      l.length = (decumRun inp f s).months) ∧
    (decumRun inp f s).recW.length = (decumRun inp f s).months ∧
    (decumRun inp f s).months ≤ s.months + f := by
  intro f
  induction f with
  | zero =>
    intro s hf hw
    have h0 : decumRun inp 0 s = s := rfl
    rw [h0]
    exact ⟨hf, hw, by omega⟩
  | succ f ih =>
    intro s hf hw
    by_cases h1 : s.pots.sum ≤ 0
    · rw [decumRun_succ, if_pos h1]
      exact ⟨hf, hw, by omega⟩
    · by_cases h2 : (monthBody inp s).pots.sum < 1
      · rw [decumRun_succ, if_neg h1, if_pos h2]
        have hf2 := recLen_monthBody inp hf
        have hw2 := recWLen_monthBody inp hw
        obtain ⟨e1, e2, e3, -⟩ := flushAnnual_rec (monthBody inp s)
        refine ⟨?_, ?_, ?_⟩
        · rw [e1, e3]
          exact hf2
        · rw [e2, e3]
          exact hw2
        · rw [e3, monthBody_months]
          omega
      · rw [decumRun_succ, if_neg h1, if_neg h2]
        have hrec := ih (monthBody inp s) (recLen_monthBody inp hf)
          (recWLen_monthBody inp hw)
        refine ⟨hrec.1, hrec.2.1, ?_⟩
        have h3 := hrec.2.2
        rw [monthBody_months] at h3
        omega

/-- Claim C2: for a validated input with retirement age below 100 and a
positive starting pot, the decumulation simulation terminates (the
embedding is a total function over a fuel of
`(100 - retirementAge) * 12` months) and the monthly series it returns —
the per-fund balance series and the withdrawal series — hold at most
`(100 - retirementAge) * 12` entries: the loop stops when the total pot
is depleted or that month bound is reached. -/
theorem c2_decumulation_length_bound (inp : DecumInput) (p : ℚ)
    (h100 : inp.retirementAge < 100) (hp : 0 < p) :
    (((simulateDecumulation inp (some p)).withdrawals.length : ℤ) ≤
      (100 - inp.retirementAge) * 12) ∧
    ∀ l ∈ (simulateDecumulation inp (some p)).funds,
      ((l.length : ℤ) ≤ (100 - inp.retirementAge) * 12) := by
  have hsim : simulateDecumulation inp (some p) =
      { funds := (decumRun inp (maxMonths inp).toNat (initState inp p)).recFunds
        withdrawals := (decumRun inp (maxMonths inp).toNat (initState inp p)).recW
        annualWithdrawals := (decumRun inp (maxMonths inp).toNat (initState inp p)).recAnnualW
        statePensionMonthlyValues := (decumRun inp (maxMonths inp).toNat (initState inp p)).recSPM
        statePensionAnnualValues := (decumRun inp (maxMonths inp).toNat (initState inp p)).recSPA }
      := by
    show (if p ≤ 0 then degenerateResult else _) = _
    rw [if_neg (not_le.mpr hp)]
  have hinit1 : ∀ l ∈ (initState inp p).recFunds,
      l.length = (initState inp p).months := by
    intro l hl
    rw [List.eq_of_mem_replicate hl]
    rfl
  have hrun := decumRun_len inp (maxMonths inp).toNat (initState inp p)
    hinit1 rfl
  have hmax : (((maxMonths inp).toNat : ℤ)) = (100 - inp.retirementAge) * 12
      := by
    rw [Int.toNat_of_nonneg]
    · rfl
    · rw [maxMonths]
      have h1 : (0 : ℤ) ≤ 100 - inp.retirementAge := by omega
      positivity
  have hbound : (decumRun inp (maxMonths inp).toNat
      (initState inp p)).months ≤ (maxMonths inp).toNat := by
    have := hrun.2.2
    simpa [initState] using this
  constructor
  · rw [hsim]
    show (((decumRun inp (maxMonths inp).toNat (initState inp p)).recW.length : ℕ) : ℤ) ≤ _
    rw [hrun.2.1, ← hmax]
    exact_mod_cast hbound
  · rw [hsim]
    intro l hl
    show ((l.length : ℤ)) ≤ _
    rw [hrun.1 l hl, ← hmax]
    exact_mod_cast hbound

/-- Witness for C2 at `decumExample` (retirement age 65) with starting
pot 1000. -/
theorem c2_decumulation_length_bound_witness :
    decumExample.retirementAge < 100 ∧ (0 : ℚ) < 1000 ∧
    (((simulateDecumulation decumExample (some 1000)).withdrawals.length : ℤ) ≤ (100 - decumExample.retirementAge) * 12) :=
  ⟨by decide, by norm_num,
    (c2_decumulation_length_bound decumExample 1000 (by decide)
      (by norm_num)).1⟩

theorem yearEndStep_pots (inp : DecumInput) (s : DecumState) :
    (yearEndStep inp s).pots = s.pots := by
  rw [yearEndStep]
  split_ifs <;> rfl

theorem getD_eq_tail_getD (l : List ℚ) (j : ℕ) :
    l.getD (j + 1) 0 = l.tail.getD j 0 := by
  cases l <;> simp

theorem getD_replicate_zero (n j : ℕ) :
    (List.replicate n (0 : ℚ)).getD j 0 = 0 := by
  by_cases h : j < n
  · exact getD_replicate_of_lt n j 0 h
  · rw [getD_of_le _ _ (by rw [List.length_replicate]; omega)]

theorem sweepStep_tail_zero (inp : DecumInput) {s : DecumState}
    (hnn : PotsNonneg s)
    (hage : inp.ageToLowRiskFund ≤
      inp.retirementAge + ((s.months / 12 : ℕ) : ℤ))
    (i : ℕ) (hi : 1 ≤ i) : (sweepStep inp s).pots.getD i 0 = 0 := by
  rw [sweepStep]
  split_ifs with h1
  · show ((s.pots.headD 0 + s.pots.tail.sum) ::
      List.replicate (s.pots.length - 1) 0).getD i 0 = 0
    obtain ⟨j, rfl⟩ : ∃ j, i = j + 1 := ⟨i - 1, by omega⟩
    rw [List.getD_cons_succ]
    exact getD_replicate_zero _ _
  · have hany : ¬((s.pots.tail.any fun p => decide (0 < p)) = true) :=
      fun hc => h1 ⟨hage, hc⟩
    obtain ⟨j, rfl⟩ : ∃ j, i = j + 1 := ⟨i - 1, by omega⟩
    show s.pots.getD (j + 1) 0 = 0
    rw [getD_eq_tail_getD]
    by_cases hj : j < s.pots.tail.length
    · rw [getD_of_lt _ _ hj]
      have hmem := List.get_mem s.pots.tail j hj
      have hpos : ¬(0 < s.pots.tail.get ⟨j, hj⟩) := by
        intro hp0
        exact hany (List.any_eq_true.mpr ⟨_, hmem, decide_eq_true hp0⟩)
      have hge : 0 ≤ s.pots.tail.get ⟨j, hj⟩ :=
        hnn _ (List.mem_of_mem_tail hmem)
      linarith
    · rw [getD_of_le _ _ (by omega)]

theorem preRecordState_pots_zero (inp : DecumInput) {s : DecumState}
    (hnn : PotsNonneg s)
    (hage : inp.ageToLowRiskFund ≤
      inp.retirementAge + ((s.months / 12 : ℕ) : ℤ))
    (i : ℕ) (hi : 1 ≤ i) :
    (preRecordState inp s).pots.getD i 0 = 0 := by
  have e1 : (preRecordState inp s).pots =
      (sweepStep inp
        (consolidateStep inp (withdrawAmount inp s)
          (rebalanceStep (returnsStep inp (withdrawStep inp s))))).pots := by
    rw [preRecordState, yearEndStep_pots]
  rw [e1]
  have hnn4 : PotsNonneg (consolidateStep inp (withdrawAmount inp s)
      (rebalanceStep (returnsStep inp (withdrawStep inp s)))) :=
    potsNonneg_consolidateStep inp _
      (potsNonneg_rebalanceStep
        (potsNonneg_returnsStep inp (potsNonneg_withdrawStep inp hnn)))
  have hm : (consolidateStep inp (withdrawAmount inp s)
      (rebalanceStep (returnsStep inp (withdrawStep inp s)))).months =
      s.months := by
    rw [(consolidateStep_rec inp _ _).2.2.1, (rebalanceStep_rec _).2.2.1]
    rfl
  exact sweepStep_tail_zero inp hnn4 (by rw [hm]; exact hage) i hi

theorem zipWith_append_getD_lt (A : List (List ℚ)) (B : List ℚ) (i : ℕ)
    (hA : i < A.length) (hB : i < B.length) :
    (List.zipWith (fun l p => l ++ [p]) A B).getD i [] =
      A.getD i [] ++ [B.getD i 0] := by
  rw [getD_of_lt _ _ (by rw [List.length_zipWith]; omega),
    getD_of_lt _ _ hA, getD_of_lt _ _ hB]
  simp [List.getElem_zipWith]

theorem zipWith_append_getD_ge (A : List (List ℚ)) (B : List ℚ) (i : ℕ)
    (h : ¬(i < A.length ∧ i < B.length)) :
    (List.zipWith (fun l p => l ++ [p]) A B).getD i [] = [] := by
  rw [getD_of_le _ _ (by rw [List.length_zipWith]; omega)]

theorem getD_append_left_of_lt (l1 l2 : List ℚ) (m : ℕ)
    (h : m < l1.length) : (l1 ++ l2).getD m 0 = l1.getD m 0 := by
  rw [getD_of_lt _ _ (by rw [List.length_append]; omega),
    getD_of_lt _ _ h]
  simp only [List.get_eq_getElem]
  exact List.getElem_append_left h

theorem getD_append_singleton_at_length (l1 : List ℚ) (v : ℚ) :
    (l1 ++ [v]).getD l1.length 0 = v := by
  rw [getD_of_lt _ _ (by rw [List.length_append]; simp)]
  simp only [List.get_eq_getElem]
  exact List.getElem_concat_length _ _ _ rfl _

/-- The recorded-balances property behind claim C4: every recorded
balance of a fund with index ≥ 1, at a month index whose simulated age
has reached the low-risk switch age, is zero. -/
def ZeroAfterSwitch (inp : DecumInput) (s : DecumState) : Prop :=
  ∀ i, 1 ≤ i → ∀ m : ℕ,
    inp.ageToLowRiskFund ≤ inp.retirementAge + ((m / 12 : ℕ) : ℤ) →
    (s.recFunds.getD i []).getD m 0 = 0

theorem zas_monthBody (inp : DecumInput) {s : DecumState}
    (hnn : PotsNonneg s)
    (hlen : ∀ l ∈ s.recFunds, l.length = s.months)
    (hz : ZeroAfterSwitch inp s) :
    ZeroAfterSwitch inp (monthBody inp s) := by
  intro i hi m hage
  rw [monthBody_recFunds, preRecordState_recFunds]
  by_cases hiR : i < s.recFunds.length ∧ i < (preRecordState inp s).pots.length
  · rw [zipWith_append_getD_lt _ _ _ hiR.1 hiR.2]
    have hAlen : (s.recFunds.getD i []).length = s.months := by
      rw [getD_of_lt _ _ hiR.1]
      exact hlen _ (List.get_mem _ _ _)
    rcases lt_trichotomy m s.months with hm | hm | hm
    · rw [getD_append_left_of_lt _ _ _ (by omega)]
      exact hz i hi m hage
    · have hm2 : m = (s.recFunds.getD i []).length := by omega
      rw [hm2, getD_append_singleton_at_length]
      refine preRecordState_pots_zero inp hnn ?_ i hi
      rw [← hm]
      exact hage
    · rw [getD_of_le _ _ (by rw [List.length_append, hAlen]; simp; omega)]
  · rw [zipWith_append_getD_ge _ _ _ hiR]
    rfl

/-- The run invariant for claim C4. -/
def C4Inv (inp : DecumInput) (s : DecumState) : Prop :=
  PotsNonneg s ∧ (∀ l ∈ s.recFunds, l.length = s.months) ∧
    ZeroAfterSwitch inp s

theorem c4Inv_monthBody (inp : DecumInput) {s : DecumState}
    (h : C4Inv inp s) : C4Inv inp (monthBody inp s) :=
  ⟨potsNonneg_monthBody inp h.1, recLen_monthBody inp h.2.1,
    zas_monthBody inp h.1 h.2.1 h.2.2⟩

theorem c4Inv_flushAnnual (inp : DecumInput) {s : DecumState}
    (h : C4Inv inp s) : C4Inv inp (flushAnnual s) := by
  obtain ⟨e1, -, e3, e4⟩ := flushAnnual_rec s
  refine ⟨?_, ?_, ?_⟩
  · intro q hq
    rw [e4] at hq
    exact h.1 q hq
  · intro l hl
    rw [e1] at hl
    rw [e3]
    exact h.2.1 l hl
  · intro i hi m hage
    rw [e1]
    exact h.2.2 i hi m hage

theorem c4Inv_decumRun (inp : DecumInput) : ∀ (f : ℕ) (s : DecumState),
    C4Inv inp s → C4Inv inp (decumRun inp f s) := by
  intro f
  induction f with
  | zero =>
    intro s h
    have h0 : decumRun inp 0 s = s := rfl
    rw [h0]
    exact h
  | succ f ih =>
    intro s h
    by_cases h1 : s.pots.sum ≤ 0
    · rw [decumRun_succ, if_pos h1]
      exact h
    · by_cases h2 : (monthBody inp s).pots.sum < 1
      · rw [decumRun_succ, if_neg h1, if_pos h2]
        exact c4Inv_flushAnnual inp (c4Inv_monthBody inp h)
      · rw [decumRun_succ, if_neg h1, if_neg h2]
        exact ih _ (c4Inv_monthBody inp h)

/-- Claim C4: in the decumulation simulation, at every recorded month
whose simulated age `retirementAge + m / 12` has reached the configured
low-risk switch age, the recorded balance of every fund with index ≥ 1
is zero — the de-risking sweep moves everything into fund 0 in a single
step, and no later step makes another fund positive again.  Since the
simulated age is non-decreasing in the month index, this gives the
property for every month from the first switch month onward. -/
theorem c4_zero_after_switch_age (inp : DecumInput) (p : ℚ) (hp : 0 < p)
    (i m : ℕ) (hi : 1 ≤ i)
    (hage : inp.ageToLowRiskFund ≤
      inp.retirementAge + ((m / 12 : ℕ) : ℤ)) :
    (((simulateDecumulation inp (some p)).funds.getD i []).getD m 0) = 0
    := by
  have hsim : (simulateDecumulation inp (some p)).funds =
      (decumRun inp (maxMonths inp).toNat (initState inp p)).recFunds := by
    show (if p ≤ 0 then degenerateResult else _).funds = _
    rw [if_neg (not_le.mpr hp)]
  have hinit : C4Inv inp (initState inp p) := by
    refine ⟨?_, ?_, ?_⟩
    · intro q hq
      rw [List.eq_of_mem_replicate hq]
      positivity
    · intro l hl
      rw [List.eq_of_mem_replicate hl]
      rfl
    · intro j hj m' hage'
      show ((List.replicate inp.numFunds ([] : List ℚ)).getD j []).getD m' 0
        = 0
      have hjl : (List.replicate inp.numFunds ([] : List ℚ)).getD j [] = []
          := by
        by_cases hjn : j < inp.numFunds
        · rw [getD_of_lt _ _ (by rw [List.length_replicate]; omega),
            List.get_eq_getElem]
          exact List.getElem_replicate _ _
        · exact getD_of_le _ _ (by rw [List.length_replicate]; omega) _
      rw [hjl]
      rfl
  have hrun := c4Inv_decumRun inp (maxMonths inp).toNat _ hinit
  rw [hsim]
  exact hrun.2.2 i hi m hage

/-- Witness for C4 at `decumExample` (switch age 75 = retirement age 65
+ 10 years, so month 120 is a switch month), fund index 1, month 120. -/
theorem c4_zero_after_switch_age_witness :
    (0 : ℚ) < 1000 ∧ 1 ≤ 1 ∧
    (decumExample.ageToLowRiskFund ≤
      decumExample.retirementAge + ((120 / 12 : ℕ) : ℤ)) ∧
    (((simulateDecumulation decumExample (some 1000)).funds.getD 1
      []).getD 120 0) = 0 :=
  ⟨by norm_num, le_refl 1, by decide,
    c4_zero_after_switch_age decumExample 1000 (by norm_num) 1 120
      (le_refl 1) (by decide)⟩
